import Mathlib

/-!
Shallow embedding of the `account_payment_sepa` Tryton module
(`src/payment.py`, `src/party.py`) and verification of its specification.

Modelling conventions:
* ORM records become Lean structures; the fields the module reads are kept
  with their source names.  Foreign keys that the module only stores (party,
  company, account_number of a mandate) are plain `Nat` identifiers.
* Python strings are Lean `String`s; where a claim reasons about string
  length, truncation `s[:35]` is modelled on the underlying character list.
* A `Selection` or `Char` field that may be SQL NULL is an `Option`;
  Python truthiness of such a field is `isSome` together with non-emptiness.
* Fallible class methods become functions returning the updated records
  paired with `Option SepaError` (the error raised, if any); a raised error
  aborts the remainder of the Python method, which the translation mirrors.
-/

namespace Sepa

/-- The four mandate workflow states (`Mandate.state` selection). -/
inductive MandateState
  | draft
  | requested
  | validated
  | canceled
deriving DecidableEq, Repr, Fintype

/-- The two mandate types (`Mandate.type` selection): `recurrent` and
`one-off`. -/
inductive MandateType
  | recurrent
  | oneOff
deriving DecidableEq, Repr

/-- `account.payment.sepa.mandate` record.  `payments` holds the ids of the
payments whose `sepa_mandate` points at this mandate (the One2Many
`Mandate.payments`); `identification` is the mandate identification string
(`size=35` Char field, `none` when NULL). -/
structure Mandate where
  id : Nat
  party : Nat
  account_number : Option Nat
  identification : Option String
  company : Nat
  type : MandateType
  signature_date : Option Nat
  state : MandateState
  payments : List Nat
deriving DecidableEq, Repr

/-- `Mandate.has_payments` function field: true iff at least one payment
references the mandate (the SQL `GROUP BY sepa_mandate` query yields a row
for the mandate). -/
def Mandate.has_payments (m : Mandate) : Bool :=
  !m.payments.isEmpty

/-- `Mandate.is_valid` property, translated branch for branch from the
source:
if state == validated: if type == one-off: if not has_payments: True
else: True; otherwise False. -/
def Mandate.is_valid (m : Mandate) : Bool :=
  if m.state = MandateState.validated then
    if m.type = MandateType.oneOff then
      if !m.has_payments then true else false
    else true
  else false

/-- `Mandate.sequence_type` property: one-off gives OOFF, exactly one
linked payment gives FRST, otherwise RCUR (FNAL is left unmanaged in the
source, marked TODO). -/
def Mandate.sequence_type (m : Mandate) : String :=
  if m.type = MandateType.oneOff then "OOFF"
  else if m.payments.length = 1 then "FRST"
  else "RCUR"

/-- The workflow transition table installed by `Mandate.__setup__`
(`cls._transitions`). -/
def mandateTransitions : List (MandateState × MandateState) :=
  [ (MandateState.draft, MandateState.requested)
  , (MandateState.requested, MandateState.validated)
  , (MandateState.validated, MandateState.canceled)
  , (MandateState.requested, MandateState.canceled)
  , (MandateState.requested, MandateState.draft) ]

/-- One `Workflow.transition` button applied to a record in state `s` with
target state `target`: the framework writes the target state exactly when
the pair is in the transition table and leaves the record untouched
otherwise.  The buttons `draft`, `request`, `validate_mandate`, `cancel`
are this step at targets draft, requested, validated, canceled. -/
def stepState (s target : MandateState) : MandateState :=
  if (s, target) ∈ mandateTransitions then target else s

/-- Decimal digits of a natural number, most significant first (empty for
zero); auxiliary for Python `str(n)` / `unicode(n)` on record ids. -/
def decRepAux : Nat → List Char
  | 0 => []
  | n+1 => decRepAux ((n+1) / 10) ++ [Char.ofNat (48 + (n+1) % 10)]
decreasing_by exact Nat.div_lt_self (Nat.succ_pos n) (by decide)

/-- Python `str(n)` for a nonnegative integer id. -/
def pyStrNat (n : Nat) : String :=
  if n = 0 then "0" else (decRepAux n).asString

/-- Python slice `s[:n]`. -/
def pyTrunc (s : String) (n : Nat) : String :=
  (s.toList.take n).asString

/-- A record of whatever model a move line's `origin` reference points at;
the module only reads its `rec_name`. -/
structure OriginDoc where
  rec_name : String
deriving DecidableEq, Repr

/-- The `account.move.line` a payment pays, as far as the module reads it. -/
structure MoveLine where
  origin : Option OriginDoc
deriving DecidableEq, Repr

/-- `party.party` extended by src/party.py: a SEPA creditor identifier and
the One2Many list of the party's mandates, in the party's ordering. -/
structure Party where
  id : Nat
  sepa_creditor_identifier : Option String
  sepa_mandates : List Mandate
deriving DecidableEq, Repr

/-- `account.payment` record, with the fields the module reads and the
`sepa_mandate` Many2One it adds. -/
structure Payment where
  id : Nat
  rec_name : String
  description : Option String
  line : Option MoveLine
  party : Party
  sepa_mandate : Option Mandate
deriving DecidableEq, Repr

/-- Python `self.line and self.line.origin`: the origin document when both
the line and its origin are set. -/
def Payment.lineOrigin (p : Payment) : Option OriginDoc :=
  match p.line with
  | some l => l.origin
  | none => none

/-- `Payment.sepa_end_to_end_id` property: origin display name truncated to
35 characters when the paid line has an origin, else the truthy description
truncated to 35 characters, else `str(self.id)`. -/
def Payment.sepa_end_to_end_id (p : Payment) : String :=
  match p.lineOrigin with
  | some o => pyTrunc o.rec_name 35
  | none =>
    match p.description with
    | some d => if d = "" then pyStrNat p.id else pyTrunc d 35
    | none => pyStrNat p.id

/-- `Payment.sepa_charge_bearer` property: the constant SLEV. -/
def Payment.sepa_charge_bearer (_ : Payment) : String :=
  "SLEV"

/-- `Payment.get_sepa_mandates`: per payment, the for/break/else scan of the
party's mandates returning the first one with `is_valid`, else None. -/
def Payment.get_sepa_mandates (payments : List Payment) : List (Option Mandate) :=
  payments.map (fun p => p.party.sepa_mandates.find? Mandate.is_valid)

/-- Errors the module can raise: framework user errors with their rendered
message, genshi's TemplateNotFound, and the bare NotImplementedError of
`process_sepa`. -/
inductive SepaError
  | userError (msg : String)
  | templateNotFound (filename : String)
  | notImplemented
deriving DecidableEq, Repr

/-- The `no_mandate` message with `%s` substituted. -/
def no_mandate_msg (recName : String) : String :=
  "No valid mandate for payment \"" ++ recName ++ "\""

/-- The `delete_draft_canceled` message with `%s` substituted. -/
def delete_draft_canceled_msg (recName : String) : String :=
  "You can not delete mandate \"" ++ recName ++
    "\" because it is not in draft or canceled state."

/-- `Mandate.get_rec_name`: `self.identification or unicode(self.id)`. -/
def Mandate.rec_name (m : Mandate) : String :=
  match m.identification with
  | some s => if s = "" then pyStrNat m.id else s
  | none => pyStrNat m.id

/-- The check loop of `Mandate.delete`: the first mandate whose state is
neither draft nor canceled, if any (Python raises at that point). -/
def checkDeletable : List Mandate → Option Mandate
  | [] => none
  | m :: rest =>
    if m.state = MandateState.draft ∨ m.state = MandateState.canceled
    then checkDeletable rest
    else some m

/-- `Mandate.delete` over a database `db` of mandate records: the check
loop runs over all arguments before `super().delete` removes them, so a
raise leaves the database untouched. -/
def Mandate.delete (db mandates : List Mandate) :
    List Mandate × Option SepaError :=
  match checkDeletable mandates with
  | some m =>
    (db, some (SepaError.userError (delete_draft_canceled_msg m.rec_name)))
  | none =>
    (db.filter (fun d => !(mandates.any (fun m => m.id == d.id))), none)

/-- `account.payment.journal` with the two SEPA flavor selections (an unset
selection is SQL NULL, i.e. Python None). -/
structure Journal where
  id : Nat
  sepa_payable_flavor : Option String
  sepa_receivable_flavor : Option String
deriving DecidableEq, Repr

/-- The payment group direction (`kind` selection of the base module). -/
inductive GroupKind
  | payable
  | receivable
deriving DecidableEq, Repr

/-- `account.payment.group` with the `sepa_message` Text field added by the
module (`none` before any message is stored). -/
structure Group where
  id : Nat
  rec_name : String
  kind : GroupKind
  journal : Journal
  payments : List Payment
  sepa_message : Option String
deriving DecidableEq, Repr

/-- UTF-8 encoding of one character (what Python `encode('utf-8')` does per
code point), bytes as naturals below 256. -/
def utf8EncodeChar (c : Char) : List Nat :=
  let n := c.toNat
  if n < 128 then [n]
  else if n < 2048 then [192 + n / 64, 128 + n % 64]
  else if n < 65536 then [224 + n / 4096, 128 + n / 64 % 64, 128 + n % 64]
  else [240 + n / 262144, 128 + n / 4096 % 64, 128 + n / 64 % 64, 128 + n % 64]

/-- Python `text.encode('utf-8')`. -/
def utf8Encode (s : String) : List Nat :=
  s.toList.flatMap utf8EncodeChar

/-- `Group.get_sepa_file`: `buffer(message.encode('utf-8'))` when the
message is truthy; the Python method returns the empty string otherwise,
modelled as `none`. -/
def Group.get_sepa_file (g : Group) : Option (List Nat) :=
  match g.sepa_message with
  | some msg => if msg = "" then none else some (utf8Encode msg)
  | none => none

/-- `Group.get_sepa_filename`: `self.rec_name + '.xml'`, unconditionally. -/
def Group.get_sepa_filename (g : Group) : String :=
  g.rec_name ++ ".xml"

/-- Modelled from the spec: the template directory (part of this repository
but not under src/) is a repository keyed by flavor name, one template file
per flavor of the journal's selections. -/
def availableTemplates : List String :=
  ["pain.001.001.03.xml", "pain.001.001.05.xml",
   "pain.008.001.02.xml", "pain.008.001.04.xml"]

/-- Python `'%s.xml' % flavor`: an unset Selection field is None and
percent-formats as the four characters None. -/
def flavorFilename : Option String → String
  | some f => f ++ ".xml"
  | none => "None.xml"

/-- `genshi.template.TemplateLoader.load`: yields the template when a file
of that name exists in the directory and raises TemplateNotFound otherwise.
The loaded template is represented by its filename. -/
def loadTemplate (name : String) : Except SepaError String :=
  if name ∈ availableTemplates then Except.ok name
  else Except.error (SepaError.templateNotFound name)

/-- `Group.get_sepa_template`: load the flavor-named template for the
group's direction.  `kind` is always payable or receivable, so the
implicit `return None` fallthrough of the Python method cannot trigger. -/
def Group.get_sepa_template (g : Group) : Except SepaError String :=
  match g.kind with
  | GroupKind.payable =>
    loadTemplate (flavorFilename g.journal.sepa_payable_flavor)
  | GroupKind.receivable =>
    loadTemplate (flavorFilename g.journal.sepa_receivable_flavor)

/-- `Payment.write([payment], {'sepa_mandate': mandate})` on the group's
payment list: assign the mandate on the record with the given id. -/
def writeMandate (ps : List Payment) (pid : Nat) (m : Mandate) : List Payment :=
  ps.map (fun p => if p.id = pid then { p with sepa_mandate := some m } else p)

/-- The `zip(payments, mandates)` loop of `process_sepa`: raise
`no_mandate` on the first payment with no mandate (keeping the writes made
so far), otherwise write each assignment in turn. -/
def assignLoop : List (Payment × Option Mandate) → List Payment →
    List Payment × Option SepaError
  | [], ps => (ps, none)
  | (p, om) :: rest, ps =>
    match om with
    | none => (ps, some (SepaError.userError (no_mandate_msg p.rec_name)))
    | some m => assignLoop rest (writeMandate ps p.id m)

/-- `Group.process_sepa`, with the genshi rendering pipeline
(`tmpl.generate(group=self, datetime=datetime).filter(remove_comment).render()`)
abstracted as a caller-supplied `render` of the loaded template and the
group.  For a receivable group the mandates of all unassigned payments are
computed up front, then written one payment at a time; then the template is
loaded (`raise NotImplementedError` guards the unreachable None template)
and the rendered text stored on the group. -/
def Group.process_sepa (render : String → Group → String) (g : Group) :
    Group × Option SepaError :=
  let assigned :=
    if g.kind = GroupKind.receivable then
      let payments := g.payments.filter (fun p => p.sepa_mandate.isNone)
      let mandates := Payment.get_sepa_mandates payments
      assignLoop (payments.zip mandates) g.payments
    else (g.payments, none)
  match assigned with
  | (ps, some e) => ({ g with payments := ps }, some e)
  | (ps, none) =>
    match Group.get_sepa_template { g with payments := ps } with
    | Except.error e => ({ g with payments := ps }, some e)
    | Except.ok tmpl =>
      let g2 := { g with payments := ps }
      ({ g2 with sepa_message := some (render tmpl g2) }, none)


/-- Sample mandates for concrete evaluations. -/
def mandateW (t : MandateType) (s : MandateState) (pays : List Nat) : Mandate :=
  Mandate.mk 7 1 (some 4) (some "MND-7") 1 t (some 20140101) s pays
/-- A concrete payment paying no line, with a description. -/
def paymentW : Payment :=
  Payment.mk 42 "PAY42" (some "Invoice 2014-01") none (Party.mk 1 none []) none
/-- A journal with neither SEPA flavor configured. -/
def journalW : Journal := Journal.mk 1 none none
/-- A group on which no SEPA message has been generated. -/
def groupNoMsg : Group := Group.mk 1 "PAY123" GroupKind.payable journalW [] none
/-- The group of `groupNoMsg` after a message has been stored. -/
def groupMsg : Group :=
  Group.mk 1 "PAY123" GroupKind.payable journalW [] (some "<Document/>")
/-- A draft mandate and a validated mandate, for concrete evaluations. -/
def mandDraft : Mandate :=
  Mandate.mk 1 1 none (some "M1") 1 MandateType.recurrent none
    MandateState.draft []
/-- A validated recurrent mandate without payments. -/
def mandValidated : Mandate :=
  Mandate.mk 2 1 (some 4) (some "M2") 1 MandateType.recurrent (some 20140101)
    MandateState.validated []
/-- The writes `assignLoop` performs: apply each assignment in turn,
stopping at the first pair with no mandate (where the Python loop
raises). -/
def applyWrites : List (Payment × Option Mandate) → List Payment → List Payment
  | [], ps => ps
  | (p, some m) :: rest, ps => applyWrites rest (writeMandate ps p.id m)
  | (_, none) :: _, ps => ps
/-- The payment at which `assignLoop` raises: the first of the zipped pairs
that carries no mandate. -/
def firstMissing : List (Payment × Option Mandate) → Option Payment
  | [] => none
  | (p, none) :: _ => some p
  | (_, some _) :: rest => firstMissing rest
/-- A fixed renderer for concrete evaluations of `process_sepa`. -/
def renderW : String → Group → String := fun _ _ => "<Document/>"
/-- A receivable group whose journal has no flavor configured. -/
def groupNoFlavor : Group :=
  Group.mk 6 "G6" GroupKind.receivable journalW [] none
/-- A journal configured for direct debit (receivable flavor set). -/
def journalRecv : Journal := Journal.mk 2 none (some "pain.008.001.02")
/-- A party holding one valid recurrent mandate. -/
def partyOk : Party := Party.mk 3 (some "ES98ZZZ04R") [mandValidated]
/-- A party with no mandates at all. -/
def partyEmpty : Party := Party.mk 4 none []
/-- An unassigned payment of the party with a valid mandate. -/
def p1C : Payment := Payment.mk 21 "PAY21" none none partyOk none
/-- An unassigned payment of the party without mandates. -/
def p2C : Payment := Payment.mk 22 "PAY22" none none partyEmpty none
/-- A receivable group whose second payment has no valid mandate. -/
def groupRecvFail : Group :=
  Group.mk 8 "G8" GroupKind.receivable journalRecv [p1C, p2C] none
/-- A validated one-off mandate with no payments yet. -/
def mandOneOff : Mandate :=
  Mandate.mk 3 2 (some 5) (some "M3") 1 MandateType.oneOff (some 20140102)
    MandateState.validated []
/-- The party of the one-off mandate. -/
def partyShared : Party := Party.mk 2 (some "ES98ZZZ04S") [mandOneOff]
/-- First unassigned payment of the shared party. -/
def payA : Payment := Payment.mk 11 "PAY11" none none partyShared none
/-- Second unassigned payment of the shared party. -/
def payB : Payment := Payment.mk 12 "PAY12" none none partyShared none
/-- A receivable group holding the two payments of the same party. -/
def groupRecvShared : Group :=
  Group.mk 9 "G9" GroupKind.receivable journalRecv [payA, payB] none

/-! ## Verification -/
/-- C1: for every mandate, `is_valid` is true iff the state is validated
and either the type is not one-off, or it is one-off and the mandate has
no linked payments. -/
theorem is_valid_iff (m : Mandate) :
    m.is_valid = true ↔
      m.state = MandateState.validated ∧
        (m.type ≠ MandateType.oneOff ∨ m.has_payments = false) := by
  cases hs : m.state <;> cases ht : m.type <;> cases hp : m.has_payments <;>
    simp [Mandate.is_valid, hs, ht, hp]
/-- Witness for C1: a validated one-off mandate with no payments is valid. -/
theorem is_valid_iff_witness :
    (mandateW MandateType.oneOff MandateState.validated []).is_valid = true :=
  (is_valid_iff (mandateW MandateType.oneOff MandateState.validated [])).mpr
    ⟨rfl, Or.inr rfl⟩
/-- C3: `sequence_type` is OOFF for a one-off mandate, FRST for any other
mandate with exactly one linked payment, RCUR otherwise (zero payments
included), and FNAL is never produced. -/
theorem sequence_type_spec (m : Mandate) :
    (m.type = MandateType.oneOff → m.sequence_type = "OOFF") ∧
    (m.type ≠ MandateType.oneOff → m.payments.length = 1 →
      m.sequence_type = "FRST") ∧
    (m.type ≠ MandateType.oneOff → m.payments.length ≠ 1 →
      m.sequence_type = "RCUR") ∧
    m.sequence_type ≠ "FNAL" := by
  cases ht : m.type <;> by_cases hl : m.payments.length = 1 <;>
    simp [Mandate.sequence_type, ht, hl]
/-- Witness for C3: a recurrent mandate with one linked payment yields
FRST. -/
theorem sequence_type_spec_witness :
    (mandateW MandateType.recurrent MandateState.validated [3]).sequence_type
      = "FRST" :=
  (sequence_type_spec
      (mandateW MandateType.recurrent MandateState.validated [3])).2.1
    (by decide) (by decide)
/-- C4: the transition table admits exactly the five listed transitions, a
workflow button never moves a record out of canceled, and the only
transition out of validated goes to canceled. -/
theorem mandate_transitions_spec :
    (∀ s t : MandateState, (s, t) ∈ mandateTransitions ↔
      ((s, t) = (MandateState.draft, MandateState.requested) ∨
       (s, t) = (MandateState.requested, MandateState.validated) ∨
       (s, t) = (MandateState.validated, MandateState.canceled) ∨
       (s, t) = (MandateState.requested, MandateState.canceled) ∨
       (s, t) = (MandateState.requested, MandateState.draft))) ∧
    (∀ t : MandateState, stepState MandateState.canceled t =
      MandateState.canceled) ∧
    (∀ s t : MandateState, (s, t) ∈ mandateTransitions →
      s = MandateState.validated → t = MandateState.canceled) := by
  decide
/-- Witness for C4: validated-to-canceled is admitted, and the third
conjunct applied there returns the target canceled. -/
theorem mandate_transitions_spec_witness :
    (MandateState.validated, MandateState.canceled) ∈ mandateTransitions ∧
      MandateState.canceled = MandateState.canceled :=
  ⟨by decide,
    mandate_transitions_spec.2.2 MandateState.validated MandateState.canceled
      (by decide) rfl⟩
/-- C10: the charge bearer of every payment is the constant SLEV,
independent of any field of the payment. -/
theorem sepa_charge_bearer_const (p q : Payment) :
    p.sepa_charge_bearer = "SLEV" ∧
      p.sepa_charge_bearer = q.sepa_charge_bearer :=
  ⟨rfl, rfl⟩
/-- The string built by `List.asString` has the length of the list. -/
theorem length_asString (l : List Char) : (List.asString l).length = l.length :=
  rfl
/-- A Python slice `s[:n]` has at most `n` characters. -/
theorem pyTrunc_length (s : String) (n : Nat) : (pyTrunc s n).length ≤ n := by
  unfold pyTrunc
  rw [length_asString]
  simp [List.length_take_le]
/-- A number below `10 ^ k` has at most `k` decimal digits. -/
theorem decRepAux_length : ∀ (k n : Nat), n < 10 ^ k → (decRepAux n).length ≤ k := by
  intro k
  induction k with
  | zero =>
    intro n h
    have h0 : n = 0 := Nat.lt_one_iff.mp (by simpa using h)
    subst h0
    simp [decRepAux]
  | succ k ih =>
    intro n h
    cases n with
    | zero => simp [decRepAux]
    | succ m =>
      have h10 : (m + 1) / 10 < 10 ^ k := by
        rw [Nat.div_lt_iff_lt_mul (by decide : (0 : Nat) < 10)]
        calc m + 1 < 10 ^ (k + 1) := h
          _ = 10 ^ k * 10 := pow_succ 10 k
      have hrec := ih ((m + 1) / 10) h10
      rw [decRepAux]
      simp only [List.length_append, List.length_cons, List.length_nil]
      omega
/-- `str(n)` has at most `k` characters when `n` is below `10 ^ k` and `k`
is positive. -/
theorem pyStrNat_length (n k : Nat) (hk : 0 < k) (h : n < 10 ^ k) :
    (pyStrNat n).length ≤ k := by
  unfold pyStrNat
  split
  · exact hk
  · rw [length_asString]
    exact decRepAux_length k n h
/-- C8: every branch of the end-to-end-id fallback chain (origin display
name, else truthy description, else `str(id)`) yields at most 35
characters; the id branch is bounded because database ids stay far below
`10 ^ 35`. -/
theorem sepa_end_to_end_id_spec (p : Payment) (h : p.id < 10 ^ 35) :
    p.sepa_end_to_end_id.length ≤ 35 ∧
    (∀ o, p.lineOrigin = some o →
      p.sepa_end_to_end_id = pyTrunc o.rec_name 35) ∧
    (p.lineOrigin = none → ∀ d, p.description = some d → d ≠ "" →
      p.sepa_end_to_end_id = pyTrunc d 35) ∧
    (p.lineOrigin = none →
      (p.description = none ∨ p.description = some "") →
      p.sepa_end_to_end_id = pyStrNat p.id) := by
  refine ⟨?_, ?_, ?_, ?_⟩
  · unfold Payment.sepa_end_to_end_id
    cases p.lineOrigin with
    | some o => exact pyTrunc_length o.rec_name 35
    | none =>
      cases p.description with
      | some d =>
        by_cases hd : d = ""
        · simp only [hd, if_pos rfl]
          exact pyStrNat_length p.id 35 (by decide) h
        · simp only [if_neg hd]
          exact pyTrunc_length d 35
      | none => exact pyStrNat_length p.id 35 (by decide) h
  · intro o ho
    unfold Payment.sepa_end_to_end_id
    rw [ho]
  · intro hno d hd hd0
    unfold Payment.sepa_end_to_end_id
    rw [hno, hd]
    simp [hd0]
  · intro hno hd
    unfold Payment.sepa_end_to_end_id
    rw [hno]
    rcases hd with hd | hd
    · rw [hd]
    · rw [hd]
      simp
/-- Witness for C8: the description branch on a concrete payment. -/
theorem sepa_end_to_end_id_spec_witness :
    paymentW.sepa_end_to_end_id.length ≤ 35 ∧
      paymentW.sepa_end_to_end_id = pyTrunc "Invoice 2014-01" 35 :=
  ⟨(sepa_end_to_end_id_spec paymentW (by decide)).1,
   (sepa_end_to_end_id_spec paymentW (by decide)).2.2.1 rfl "Invoice 2014-01"
     rfl (by decide)⟩
/-- C7 counterexample: with no message generated, the filename accessor
still returns PAY123.xml rather than an empty value. -/
theorem get_sepa_filename_before_generation :
    groupNoMsg.sepa_message = none ∧
      Group.get_sepa_filename groupNoMsg ≠ "" := by
  exact ⟨rfl, by decide⟩
/-- C7 (amended): the binary accessor is empty before any message exists
and is the UTF-8 encoding of the stored message afterwards, while the
filename accessor returns the display name with the fixed suffix .xml
unconditionally, message or not. -/
theorem sepa_file_accessors (g : Group) :
    (g.sepa_message = none → g.get_sepa_file = none) ∧
    (∀ msg, g.sepa_message = some msg → msg ≠ "" →
      g.get_sepa_file = some (utf8Encode msg)) ∧
    g.get_sepa_filename = g.rec_name ++ ".xml" := by
  refine ⟨?_, ?_, rfl⟩
  · intro h
    simp [Group.get_sepa_file, h]
  · intro msg h hm
    simp [Group.get_sepa_file, h, hm]
/-- Witness for C7: the binary accessor of a concrete processed group is
the UTF-8 encoding of its message. -/
theorem sepa_file_accessors_witness :
    Group.get_sepa_file groupMsg = some (utf8Encode "<Document/>") :=
  (sepa_file_accessors groupMsg).2.1 "<Document/>" rfl (by decide)
/-- The delete check loop accepts a mandate list exactly when every state
is draft or canceled. -/
theorem checkDeletable_eq_none (ms : List Mandate) :
    checkDeletable ms = none ↔
      ∀ m ∈ ms, m.state = MandateState.draft ∨
        m.state = MandateState.canceled := by
  induction ms with
  | nil => simp [checkDeletable]
  | cons m rest ih =>
    by_cases h : m.state = MandateState.draft ∨ m.state = MandateState.canceled
    · simp [checkDeletable, h, ih]
    · simp only [checkDeletable, if_neg h]
      constructor
      · intro hc
        exact Option.noConfusion hc
      · intro hall
        exact absurd (hall m (List.mem_cons_self m rest)) h
/-- C5: deleting mandates fails with the delete_draft_canceled user error
and leaves the database untouched when some argument is neither draft nor
canceled, and removes exactly the argument records when all of them are
draft or canceled. -/
theorem delete_guard (db ms : List Mandate) :
    ((∃ m ∈ ms, m.state ≠ MandateState.draft ∧
        m.state ≠ MandateState.canceled) →
      (Mandate.delete db ms).1 = db ∧
      ∃ r, (Mandate.delete db ms).2 =
        some (SepaError.userError (delete_draft_canceled_msg r))) ∧
    ((∀ m ∈ ms, m.state = MandateState.draft ∨
        m.state = MandateState.canceled) →
      (Mandate.delete db ms).2 = none ∧
      (Mandate.delete db ms).1 =
        db.filter (fun d => !(ms.any (fun m => m.id == d.id)))) := by
  constructor
  · rintro ⟨m, hm, h1, h2⟩
    have hne : checkDeletable ms ≠ none := by
      rw [Ne, checkDeletable_eq_none]
      intro hall
      rcases hall m hm with h | h
      · exact h1 h
      · exact h2 h
    rcases Option.ne_none_iff_exists'.mp hne with ⟨b, hb⟩
    unfold Mandate.delete
    rw [hb]
    exact ⟨rfl, b.rec_name, rfl⟩
  · intro hall
    have hc : checkDeletable ms = none := (checkDeletable_eq_none ms).mpr hall
    unfold Mandate.delete
    rw [hc]
    exact ⟨rfl, rfl⟩
/-- Witness for C5: deleting the validated mandate fails and leaves the
two-mandate database unchanged. -/
theorem delete_guard_witness :
    (Mandate.delete [mandDraft, mandValidated] [mandValidated]).1 =
        [mandDraft, mandValidated] ∧
      ∃ r, (Mandate.delete [mandDraft, mandValidated] [mandValidated]).2 =
        some (SepaError.userError (delete_draft_canceled_msg r)) :=
  (delete_guard [mandDraft, mandValidated] [mandValidated]).1
    ⟨mandValidated, by decide, by decide, by decide⟩
/-- `assignLoop` applies the writes up to the first missing mandate and
reports the no_mandate error for that payment. -/
theorem assignLoop_eq (pairs : List (Payment × Option Mandate))
    (ps : List Payment) :
    assignLoop pairs ps =
      (applyWrites pairs ps,
        (firstMissing pairs).map
          (fun p => SepaError.userError (no_mandate_msg p.rec_name))) := by
  induction pairs generalizing ps with
  | nil => rfl
  | cons x rest ih =>
    rcases x with ⟨p, om⟩
    cases om with
    | none => rfl
    | some m => exact ih (writeMandate ps p.id m)
/-- No pair lacks a mandate exactly when `firstMissing` finds none. -/
theorem firstMissing_eq_none (pairs : List (Payment × Option Mandate)) :
    firstMissing pairs = none ↔ ∀ x ∈ pairs, x.2.isSome := by
  induction pairs with
  | nil => simp [firstMissing]
  | cons x rest ih =>
    rcases x with ⟨p, om⟩
    cases om with
    | none => simp [firstMissing]
    | some m => simp [firstMissing, ih]
/-- `firstMissing` on a list whose prefix is fully assigned returns the
first unassigned payment. -/
theorem firstMissing_append (good : List (Payment × Option Mandate))
    (p : Payment) (rest : List (Payment × Option Mandate))
    (h : ∀ x ∈ good, x.2.isSome) :
    firstMissing (good ++ (p, none) :: rest) = some p := by
  induction good with
  | nil => rfl
  | cons x g ih =>
    rcases x with ⟨q, om⟩
    cases om with
    | none => exact absurd (h (q, none) (List.mem_cons_self _ _)) (by simp)
    | some m =>
      exact ih (fun y hy => h y (List.mem_cons_of_mem _ hy))
/-- `applyWrites` on a list whose prefix is fully assigned stops at the
first unassigned payment, keeping exactly the writes of the prefix. -/
theorem applyWrites_append (good : List (Payment × Option Mandate))
    (p : Payment) (rest : List (Payment × Option Mandate))
    (ps : List Payment) (h : ∀ x ∈ good, x.2.isSome) :
    applyWrites (good ++ (p, none) :: rest) ps = applyWrites good ps := by
  induction good generalizing ps with
  | nil => rfl
  | cons x g ih =>
    rcases x with ⟨q, om⟩
    cases om with
    | none => exact absurd (h (q, none) (List.mem_cons_self _ _)) (by simp)
    | some m =>
      exact ih (writeMandate ps q.id m)
        (fun y hy => h y (List.mem_cons_of_mem _ hy))
/-- Zipping a list with its image under a map pairs each element with its
image. -/
theorem zip_map_self {α β : Type} (l : List α) (f : α → β) :
    l.zip (l.map f) = l.map (fun a => (a, f a)) := by
  induction l with
  | nil => rfl
  | cons a rest ih => simp [ih]
/-- `find?` on the validity predicate returns a valid mandate that is
first: every mandate before it in the party's ordering is invalid. -/
theorem find_first_valid (l : List Mandate) (m : Mandate)
    (h : l.find? Mandate.is_valid = some m) :
    m.is_valid = true ∧ ∃ pre post, l = pre ++ m :: post ∧
      ∀ x ∈ pre, x.is_valid = false := by
  induction l with
  | nil => cases h
  | cons a rest ih =>
    by_cases ha : a.is_valid = true
    · rw [List.find?_cons_of_pos _ ha] at h
      cases h
      exact ⟨ha, [], rest, rfl, by simp⟩
    · rw [List.find?_cons_of_neg _ ha] at h
      rcases ih h with ⟨hv, pre, post, heq, hpre⟩
      refine ⟨hv, a :: pre, post, by rw [heq, List.cons_append], ?_⟩
      intro x hx
      rcases List.mem_cons.mp hx with rfl | hx
      · exact Bool.not_eq_true _ ▸ Bool.eq_false_iff.mpr ha
      · exact hpre x hx
/-- A record update in `writeMandate` leaves ids unchanged and every
record carrying the written id ends up with the written mandate. -/
theorem writeMandate_mem_eq (ps : List Payment) (pid : Nat) (m : Mandate)
    (q : Payment) (hq : q ∈ writeMandate ps pid m) (hid : q.id = pid) :
    q.sepa_mandate = some m := by
  rcases List.mem_map.mp hq with ⟨q0, _, hq0⟩
  by_cases h0 : q0.id = pid
  · rw [if_pos h0] at hq0
    rw [← hq0]
  · rw [if_neg h0] at hq0
    exact absurd (hq0 ▸ hid) h0
/-- Writes at other ids preserve the mandate of every record with a given
id. -/
theorem applyWrites_preserves (pairs : List (Payment × Option Mandate))
    (ps : List Payment) (pid : Nat) (mm : Option Mandate)
    (hout : pid ∉ pairs.map (fun x => x.1.id))
    (hps : ∀ q ∈ ps, q.id = pid → q.sepa_mandate = mm) :
    ∀ q ∈ applyWrites pairs ps, q.id = pid → q.sepa_mandate = mm := by
  induction pairs generalizing ps with
  | nil => exact hps
  | cons x rest ih =>
    rcases x with ⟨p0, om⟩
    have hne : p0.id ≠ pid := by
      intro hcon
      exact hout (by simp [hcon])
    have hout2 : pid ∉ rest.map (fun x => x.1.id) := by
      intro hcon
      exact hout (List.mem_cons_of_mem _ hcon)
    cases om with
    | none => exact hps
    | some m0 =>
      refine ih (writeMandate ps p0.id m0) hout2 ?_
      intro q hq hqid
      rcases List.mem_map.mp hq with ⟨q0, hq0m, hq0⟩
      by_cases h0 : q0.id = p0.id
      · rw [if_pos h0] at hq0
        have : q.id = q0.id := by rw [← hq0]
        exact absurd (hqid ▸ h0 ▸ this.symm) hne
      · rw [if_neg h0] at hq0
        exact hq0 ▸ hps q0 hq0m (hq0 ▸ hqid)
/-- In a fully assigned pair list with distinct payment ids, every record
of the result carrying the id of an assigned payment carries its selected
mandate. -/
theorem applyWrites_assigns (pairs : List (Payment × Option Mandate))
    (ps : List Payment) (p : Payment) (m : Mandate)
    (hnd : (pairs.map (fun x => x.1.id)).Nodup)
    (hall : ∀ x ∈ pairs, x.2.isSome)
    (hmem : (p, some m) ∈ pairs) :
    ∀ q ∈ applyWrites pairs ps, q.id = p.id → q.sepa_mandate = some m := by
  induction pairs generalizing ps with
  | nil => cases hmem
  | cons x rest ih =>
    rcases x with ⟨p0, om⟩
    cases om with
    | none => exact absurd (hall (p0, none) (List.mem_cons_self _ _)) (by simp)
    | some m0 =>
      rw [List.map_cons] at hnd
      have hnd2 := List.nodup_cons.mp hnd
      rcases List.mem_cons.mp hmem with heq | hmem2
      · have hp : p0 = p := congrArg Prod.fst heq.symm
        have hm : m0 = m := by
          have := congrArg Prod.snd heq.symm
          simpa using this
        subst hp
        subst hm
        refine applyWrites_preserves rest (writeMandate ps p0.id m0) p0.id
          (some m0) hnd2.1 ?_
        intro q hq hqid
        exact writeMandate_mem_eq ps p0.id m0 q hq hqid
      · refine ih (writeMandate ps p0.id m0) hnd2.2
          (fun y hy => hall y (List.mem_cons_of_mem _ hy)) hmem2
/-- Characterization of `process_sepa` on a receivable group: apply the
writes up to the first missing mandate, then raise for it, or load the
template and store the rendered message. -/
theorem process_sepa_receivable_eq (render : String → Group → String)
    (g : Group) (hk : g.kind = GroupKind.receivable) :
    Group.process_sepa render g =
      (let todo := g.payments.filter (fun p => p.sepa_mandate.isNone)
       let pairs := todo.zip (Payment.get_sepa_mandates todo)
       let ps := applyWrites pairs g.payments
       match (firstMissing pairs).map
           (fun p => SepaError.userError (no_mandate_msg p.rec_name)) with
       | some e => ({ g with payments := ps }, some e)
       | none =>
         match Group.get_sepa_template { g with payments := ps } with
         | Except.error e => ({ g with payments := ps }, some e)
         | Except.ok tmpl =>
           ({ g with
               payments := ps,
               sepa_message :=
                 some (render tmpl { g with payments := ps }) }, none)) := by
  unfold Group.process_sepa
  rw [if_pos hk, assignLoop_eq]
  cases hfm : firstMissing
      ((List.filter (fun p => p.sepa_mandate.isNone) g.payments).zip
        (Payment.get_sepa_mandates
          (List.filter (fun p => p.sepa_mandate.isNone) g.payments))) with
  | none => simp [hfm]
  | some p => simp [hfm]
/-- Whatever happens afterwards, a processed receivable group carries
exactly the mandate writes applied to its payment list. -/
theorem process_payments_eq (render : String → Group → String) (g : Group)
    (hk : g.kind = GroupKind.receivable) :
    (Group.process_sepa render g).1.payments =
      applyWrites
        ((g.payments.filter (fun p => p.sepa_mandate.isNone)).zip
          (Payment.get_sepa_mandates
            (g.payments.filter (fun p => p.sepa_mandate.isNone))))
        g.payments := by
  rw [process_sepa_receivable_eq render g hk]
  dsimp only
  split
  · rfl
  · split
    · rfl
    · rfl
/-- When some unassigned payment lacks a valid mandate, `process_sepa`
raises the no_mandate error of the first such payment. -/
theorem process_error_eq (render : String → Group → String) (g : Group)
    (hk : g.kind = GroupKind.receivable) (p : Payment)
    (hfm : firstMissing
        ((g.payments.filter (fun p => p.sepa_mandate.isNone)).zip
          (Payment.get_sepa_mandates
            (g.payments.filter (fun p => p.sepa_mandate.isNone)))) = some p) :
    (Group.process_sepa render g).2 =
      some (SepaError.userError (no_mandate_msg p.rec_name)) := by
  rw [process_sepa_receivable_eq render g hk]
  simp [hfm]
/-- Loading the name that an unset flavor produces fails: no None.xml file
exists in the template directory. -/
theorem loadTemplate_none_xml :
    loadTemplate "None.xml" =
      Except.error (SepaError.templateNotFound "None.xml") := rfl
/-- C6 counterexample: processing a flavorless group fails with genshi
TemplateNotFound for None.xml, raised inside get_sepa_template, not with
the NotImplementedError of the falsy-template check (which is unreachable
for payable and receivable groups). -/
theorem process_no_flavor_counterexample :
    (Group.process_sepa renderW groupNoFlavor).2 ≠
        some SepaError.notImplemented ∧
      (Group.process_sepa renderW groupNoFlavor).2 =
        some (SepaError.templateNotFound "None.xml") := by
  exact ⟨by decide, by decide⟩
/-- C6 (amended): with no flavor configured for the group's direction,
processing fails fatally with the loader's template-not-found error for
None.xml and no SEPA message is stored on the group (the mandate step is
assumed to pass, otherwise its error comes first). -/
theorem process_no_flavor (render : String → Group → String) (g : Group)
    (hp : g.kind = GroupKind.payable → g.journal.sepa_payable_flavor = none)
    (hr : g.kind = GroupKind.receivable →
      g.journal.sepa_receivable_flavor = none)
    (hm : ∀ p ∈ g.payments, p.sepa_mandate = none →
      (p.party.sepa_mandates.find? Mandate.is_valid).isSome) :
    (Group.process_sepa render g).2 =
        some (SepaError.templateNotFound "None.xml") ∧
      (Group.process_sepa render g).1.sepa_message = g.sepa_message := by
  cases hk : g.kind with
  | payable =>
    have hflav := hp hk
    unfold Group.process_sepa
    rw [if_neg (by simp [hk])]
    have ht : Group.get_sepa_template { g with payments := g.payments } =
        Except.error (SepaError.templateNotFound "None.xml") := by
      unfold Group.get_sepa_template
      simp [hk, hflav, flavorFilename, loadTemplate_none_xml]
    simp [ht]
  | receivable =>
    have hflav := hr hk
    have hall : ∀ x ∈ (g.payments.filter
          (fun p => p.sepa_mandate.isNone)).zip
        (Payment.get_sepa_mandates
          (g.payments.filter (fun p => p.sepa_mandate.isNone))),
        x.2.isSome := by
      rw [Payment.get_sepa_mandates, zip_map_self]
      intro x hx
      rcases List.mem_map.mp hx with ⟨a, ha, rfl⟩
      rcases List.mem_filter.mp ha with ⟨hag, han⟩
      exact hm a hag (Option.isNone_iff_eq_none.mp han)
    have hfm := (firstMissing_eq_none _).mpr hall
    rw [process_sepa_receivable_eq render g hk]
    have ht : Group.get_sepa_template
        { g with
            payments := applyWrites
              ((g.payments.filter (fun p => p.sepa_mandate.isNone)).zip
                (Payment.get_sepa_mandates
                  (g.payments.filter (fun p => p.sepa_mandate.isNone))))
              g.payments } =
        Except.error (SepaError.templateNotFound "None.xml") := by
      unfold Group.get_sepa_template
      simp [hk, hflav, flavorFilename, loadTemplate_none_xml]
    simp [hfm, ht]
/-- Witness for C6 (amended): the concrete flavorless group fails with the
template-not-found error and keeps its empty message. -/
theorem process_no_flavor_witness :
    (Group.process_sepa renderW groupNoFlavor).2 =
        some (SepaError.templateNotFound "None.xml") ∧
      (Group.process_sepa renderW groupNoFlavor).1.sepa_message =
        groupNoFlavor.sepa_message :=
  process_no_flavor renderW groupNoFlavor (fun h => by cases h) (fun _ => rfl)
    (fun p hp => absurd hp (List.not_mem_nil p))
/-- C2: on a receivable group (with the database invariant of distinct
payment ids), processing assigns to every payment lacking a mandate the
first mandate of its party for which is_valid holds, and when the group
reaches a payment whose party has no valid mandate it raises the
no_mandate user error naming that payment while the assignments already
written for the payments before it remain in place. -/
theorem process_receivable_spec (render : String → Group → String)
    (g : Group) (hk : g.kind = GroupKind.receivable)
    (hids : (g.payments.map Payment.id).Nodup) :
    ((∀ p ∈ g.payments.filter (fun p => p.sepa_mandate.isNone),
        (p.party.sepa_mandates.find? Mandate.is_valid).isSome) →
      ∀ p ∈ g.payments.filter (fun p => p.sepa_mandate.isNone),
        ∀ m, p.party.sepa_mandates.find? Mandate.is_valid = some m →
          (m.is_valid = true ∧ ∃ pre post,
            p.party.sepa_mandates = pre ++ m :: post ∧
            ∀ x ∈ pre, x.is_valid = false) ∧
          ∀ q ∈ (Group.process_sepa render g).1.payments, q.id = p.id →
            q.sepa_mandate = some m) ∧
    (∀ pre p post,
      g.payments.filter (fun p => p.sepa_mandate.isNone) = pre ++ p :: post →
      p.party.sepa_mandates.find? Mandate.is_valid = none →
      (∀ q ∈ pre, (q.party.sepa_mandates.find? Mandate.is_valid).isSome) →
      (Group.process_sepa render g).2 =
        some (SepaError.userError (no_mandate_msg p.rec_name)) ∧
      ∀ q ∈ pre, ∀ m,
        q.party.sepa_mandates.find? Mandate.is_valid = some m →
        ∀ r ∈ (Group.process_sepa render g).1.payments, r.id = q.id →
          r.sepa_mandate = some m) := by
  have hsub : (g.payments.filter (fun p => p.sepa_mandate.isNone)).Sublist
      g.payments := List.filter_sublist _
  have hids_todo : ((g.payments.filter
      (fun p => p.sepa_mandate.isNone)).map Payment.id).Nodup :=
    List.Nodup.sublist (hsub.map Payment.id) hids
  have hpairs : (g.payments.filter (fun p => p.sepa_mandate.isNone)).zip
      (Payment.get_sepa_mandates
        (g.payments.filter (fun p => p.sepa_mandate.isNone))) =
      (g.payments.filter (fun p => p.sepa_mandate.isNone)).map
        (fun a => (a, a.party.sepa_mandates.find? Mandate.is_valid)) :=
    zip_map_self _ _
  constructor
  · intro hall p hp m hm
    refine ⟨find_first_valid _ m hm, ?_⟩
    rw [process_payments_eq render g hk, hpairs]
    refine applyWrites_assigns _ g.payments p m ?_ ?_ ?_
    · rw [List.map_map]
      exact hids_todo
    · intro x hx
      rcases List.mem_map.mp hx with ⟨a, ha, rfl⟩
      exact hall a ha
    · exact List.mem_map.mpr ⟨p, hp, by rw [hm]⟩
  · intro pre p post htodo hfp hpre
    have hgood : ∀ x ∈ pre.map
        (fun a => (a, a.party.sepa_mandates.find? Mandate.is_valid)),
        x.2.isSome := by
      intro x hx
      rcases List.mem_map.mp hx with ⟨a, ha, rfl⟩
      exact hpre a ha
    have hsplit : (g.payments.filter (fun p => p.sepa_mandate.isNone)).map
        (fun a => (a, a.party.sepa_mandates.find? Mandate.is_valid)) =
        pre.map (fun a => (a, a.party.sepa_mandates.find? Mandate.is_valid)) ++
          (p, (none : Option Mandate)) ::
          post.map
            (fun a => (a, a.party.sepa_mandates.find? Mandate.is_valid)) := by
      rw [htodo, List.map_append, List.map_cons, hfp]
    have hfm : firstMissing
        ((g.payments.filter (fun p => p.sepa_mandate.isNone)).zip
          (Payment.get_sepa_mandates
            (g.payments.filter (fun p => p.sepa_mandate.isNone)))) =
        some p := by
      rw [hpairs, hsplit]
      exact firstMissing_append _ p _ hgood
    refine ⟨process_error_eq render g hk p hfm, ?_⟩
    intro q hq m hqm r hr hrid
    rw [process_payments_eq render g hk, hpairs, hsplit,
      applyWrites_append _ p _ g.payments hgood] at hr
    have hpre_sub : pre.Sublist
        (g.payments.filter (fun p => p.sepa_mandate.isNone)) := by
      rw [htodo]
      exact List.sublist_append_left _ _
    refine applyWrites_assigns _ g.payments q m ?_ hgood ?_ r hr hrid
    · rw [List.map_map]
      exact List.Nodup.sublist (hpre_sub.map Payment.id) hids_todo
    · exact List.mem_map.mpr ⟨q, hq, by rw [hqm]⟩
/-- Witness for C2: processing the concrete group fails with the
no_mandate error naming PAY22, the first payment without a valid
mandate. -/
theorem process_receivable_spec_witness :
    (Group.process_sepa renderW groupRecvFail).2 =
      some (SepaError.userError (no_mandate_msg "PAY22")) :=
  ((process_receivable_spec renderW groupRecvFail rfl (by decide)).2
    [p1C] p2C [] (by decide) rfl (by decide)).1
/-- C9: the mandates of all unassigned payments of a receivable group are
selected before any assignment is written, against the pre-call state; in
particular two unassigned payments of the same party both receive the
party's first valid mandate m, whatever its type (a one-off mandate
included), because the second selection does not see the first write. -/
theorem mandates_selected_before_writes (render : String → Group → String)
    (g : Group) (p1 p2 : Payment) (m : Mandate)
    (hk : g.kind = GroupKind.receivable)
    (hps : g.payments = [p1, p2])
    (h1 : p1.sepa_mandate = none) (h2 : p2.sepa_mandate = none)
    (hparty : p2.party = p1.party)
    (hf : p1.party.sepa_mandates.find? Mandate.is_valid = some m) :
    ∀ q ∈ (Group.process_sepa render g).1.payments,
      q.sepa_mandate = some m := by
  have hf2 : p2.party.sepa_mandates.find? Mandate.is_valid = some m := by
    rw [hparty]
    exact hf
  rw [process_payments_eq render g hk, hps]
  have hfil : List.filter (fun p => p.sepa_mandate.isNone) [p1, p2] =
      [p1, p2] := by
    simp [List.filter, h1, h2]
  rw [hfil]
  have hsel : Payment.get_sepa_mandates [p1, p2] = [some m, some m] := by
    simp [Payment.get_sepa_mandates, hf, hf2]
  rw [hsel]
  intro q hq
  simp only [List.zip, List.zipWith, applyWrites] at hq
  rcases List.mem_map.mp hq with ⟨q1, hq1, hw2⟩
  rcases List.mem_map.mp hq1 with ⟨q0, hq0, hw1⟩
  rcases List.mem_cons.mp hq0 with rfl | hq0m
  · rw [if_pos rfl] at hw1
    by_cases hc : q1.id = p2.id
    · rw [if_pos hc] at hw2
      rw [← hw2]
    · rw [if_neg hc] at hw2
      rw [← hw2, ← hw1]
  · have hq0p : q0 = p2 := by
      rcases List.mem_cons.mp hq0m with h | h
      · exact h
      · exact absurd h (List.not_mem_nil q0)
    subst hq0p
    by_cases hc : q0.id = p1.id
    · rw [if_pos hc] at hw1
      by_cases hc2 : q1.id = q0.id
      · rw [if_pos hc2] at hw2
        rw [← hw2]
      · rw [if_neg hc2] at hw2
        rw [← hw2, ← hw1]
    · rw [if_neg hc] at hw1
      have hq1id : q1.id = q0.id := by
        rw [← hw1]
      rw [if_pos hq1id] at hw2
      rw [← hw2]
/-- Witness for C9: after processing the concrete group, the record of the
first payment carries the shared one-off mandate (and so does the second,
by the same theorem). -/
theorem mandates_selected_before_writes_witness :
    (Payment.mk 11 "PAY11" none none partyShared
        (some mandOneOff)).sepa_mandate = some mandOneOff :=
  mandates_selected_before_writes renderW groupRecvShared payA payB mandOneOff
    rfl rfl rfl rfl rfl rfl
    (Payment.mk 11 "PAY11" none none partyShared (some mandOneOff))
    (by decide)

end Sepa
